import Mathlib

/-!
Verification model of the agent orchestration core of the ZhaoXi workbench
(`src/app/src-tauri/src/commands.rs`).

The Rust code is shallowly embedded as pure Lean functions:
* `serde_json::Value` becomes the inductive `Json` (objects are association
  lists kept sorted by key, mirroring `serde_json`'s `BTreeMap`; JSON numbers
  carry an integer value together with a flag telling whether the literal was a
  plain integer fitting in `i64`, which is exactly what `as_i64` tests; the
  fractional part of a non-integer literal is immaterial to every function in
  scope and is truncated);
* strings are processed as `List Char`; the claims only exercise this code on
  text where Rust's byte indices and character indices agree;
* the SQLite tables touched by the executor become the record `Store`, and a
  transaction is the `Store` value threaded through the execution loop —
  rolling back is returning the store from before the loop;
* the ambient clock (`chrono::Utc::now()`) is a parameter `ExecEnv`;
* network, file-system and subprocess effects are inputs: the outcome of an
  HTTP round trip or of a spawned subprocess is passed in as data;
* a Rust panic (reachable in `extract_json_block` through the slice
  `content[start..=end]`) is modelled as `Option.none`.
-/

/-- Model of `serde_json::Value`.  `num n intLike` holds an integer
approximation of the literal; `intLike` is true exactly when the literal is a
plain integer in the `i64` range, which is when `as_i64` succeeds. -/
inductive Json where
  | null : Json
  | bool : Bool → Json
  | num : Int → Bool → Json
  | str : String → Json
  | arr : List Json → Json
  | obj : List (String × Json) → Json
  deriving Inhabited

/-- Lexicographic order on character lists; on strings this is the order of
Rust's `Ord for String` (UTF-8 byte order coincides with code-point order). -/
def lexLt : List Char → List Char → Bool
  | [], [] => false
  | [], _ :: _ => true
  | _ :: _, [] => false
  | a :: as, b :: bs =>
    if a.toNat < b.toNat then true
    else if b.toNat < a.toNat then false
    else lexLt as bs

def strLtB (a b : String) : Bool := lexLt a.data b.data

namespace Json

/-- Insertion into a sorted association list, replacing an existing binding:
the behaviour of `BTreeMap::insert` used by `serde_json` objects. -/
def objInsert (k : String) (v : Json) : List (String × Json) → List (String × Json)
  | [] => [(k, v)]
  | (k2, v2) :: rest =>
    if k = k2 then (k, v) :: rest
    else if strLtB k k2 then (k, v) :: (k2, v2) :: rest
    else (k2, v2) :: objInsert k v rest

/-- `Value::get(key)`: `Some` only on objects holding the key. -/
def get : Json → String → Option Json
  | obj fields, key => (fields.find? (fun p => p.1 = key)).map Prod.snd
  | _, _ => none

/-- `Value::as_str`. -/
def asStr : Json → Option String
  | str s => some s
  | _ => none

/-- `Value::as_bool`. -/
def asBool : Json → Option Bool
  | bool b => some b
  | _ => none

/-- `Value::as_i64`: succeeds exactly on plain integer literals in `i64`
range. -/
def asI64 : Json → Option Int
  | num n true => some n
  | _ => none

/-- `Value::as_f64` on a JSON number (the integer approximation stands in for
the floating value; nothing in scope inspects it further). -/
def asF64 : Json → Option Int
  | num n _ => some n
  | _ => none

/-- `Value::as_array`. -/
def asArr : Json → Option (List Json)
  | arr xs => some xs
  | _ => none

def isObject : Json → Bool
  | obj _ => true
  | _ => false

end Json

/-! ### Character-level string helpers

Rust's `str` operations used by the code, phrased over `List Char`. -/

/-- Rust `char::is_whitespace` restricted to the ASCII whitespace the claims
exercise; identical to `Char.isWhitespace`. -/
def rustWs (c : Char) : Bool :=
  c = ' ' || c = '\t' || c = '\n' || c = '\r'

/-- Rust `str::trim` on a character list. -/
def trimChars (cs : List Char) : List Char :=
  ((cs.dropWhile rustWs).reverse.dropWhile rustWs).reverse

/-- Rust `str::trim` as a `String` operation. -/
def strTrim (s : String) : String :=
  ⟨trimChars s.data⟩

/-- Does `pat` occur at the head of `s`? -/
def leadsWith : List Char → List Char → Bool
  | [], _ => true
  | _ :: _, [] => false
  | p :: ps, c :: cs => p = c && leadsWith ps cs

/-- Rust `str::find(pattern)`: index of the first occurrence of `pat`. -/
def findSub (pat : List Char) : List Char → Option Nat
  | [] => if pat.isEmpty then some 0 else none
  | c :: cs =>
    if leadsWith pat (c :: cs) then some 0
    else (findSub pat cs).map (· + 1)

/-- Rust `str::find(char)`. -/
def findChar (ch : Char) : List Char → Option Nat
  | [] => none
  | c :: cs => if c = ch then some 0 else (findChar ch cs).map (· + 1)

/-- Rust `str::rfind(char)`. -/
def rfindChar (ch : Char) (cs : List Char) : Option Nat :=
  (findChar ch cs.reverse).map (fun i => cs.length - 1 - i)

/-- Rust `str::contains(pattern)`. -/
def containsSub (s pat : String) : Bool :=
  (findSub pat.data s.data).isSome

/-- Rust `str::to_lowercase` (ASCII part; the non-ASCII text in scope has no
case). -/
def lowerStr (s : String) : String :=
  ⟨s.data.map Char.toLower⟩

/-- Split a character list at `'\n'` (keeping empty segments, one final
segment even when empty). -/
def splitNL : List Char → List (List Char)
  | [] => [[]]
  | c :: cs =>
    if c = '\n' then [] :: splitNL cs
    else match splitNL cs with
      | seg :: rest => (c :: seg) :: rest
      | [] => [[c]]

/-- Drop one trailing `'\r'`. -/
def stripCR (seg : List Char) : List Char :=
  match seg.reverse with
  | '\r' :: rest => rest.reverse
  | _ => seg

/-- Rust `str::lines`: split on `'\n'`, dropping one trailing `'\r'` per line
and ignoring a final empty segment. -/
def rustLines (s : String) : List String :=
  let segs := splitNL s.data
  let segs := match segs.reverse with
    | [] :: rest => rest.reverse
    | _ => segs
  segs.map (fun seg => ⟨stripCR seg⟩)

/-- Rust `str::starts_with(char)`. -/
def headIs (s : String) (ch : Char) : Bool :=
  match s.data with
  | c :: _ => c = ch
  | [] => false

/-! ### A `serde_json` parser

Fuel-indexed recursive descent, faithful to `serde_json::from_str`: ASCII
whitespace between tokens, strict number grammar (no leading zeros, optional
fraction and exponent), string escapes including `\uXXXX` with surrogate
pairs, and rejection of trailing input. -/

def hexVal (c : Char) : Option Nat :=
  if '0' ≤ c ∧ c ≤ '9' then some (c.toNat - '0'.toNat)
  else if 'a' ≤ c ∧ c ≤ 'f' then some (c.toNat - 'a'.toNat + 10)
  else if 'A' ≤ c ∧ c ≤ 'F' then some (c.toNat - 'A'.toNat + 10)
  else none

def parseHex4 : List Char → Option (Nat × List Char)
  | a :: b :: c :: d :: rest => do
    let x ← hexVal a
    let y ← hexVal b
    let z ← hexVal c
    let w ← hexVal d
    pure (((x * 16 + y) * 16 + z) * 16 + w, rest)
  | _ => none

def skipWs : List Char → List Char
  | c :: cs => if rustWs c then skipWs cs else c :: cs
  | [] => []

/-- Body of a JSON string literal (after the opening quote). -/
def parseStrBody (fuel : Nat) (acc : List Char) (cs : List Char) :
    Option (String × List Char) :=
  match fuel, cs with
  | 0, _ => none
  | _, [] => none
  | fuel + 1, c :: rest =>
    if c = '"' then some (⟨acc.reverse⟩, rest)
    else if c = '\\' then
      match rest with
      | [] => none
      | e :: rest2 =>
        if e = '"' then parseStrBody fuel ('"' :: acc) rest2
        else if e = '\\' then parseStrBody fuel ('\\' :: acc) rest2
        else if e = '/' then parseStrBody fuel ('/' :: acc) rest2
        else if e = 'b' then parseStrBody fuel ('\x08' :: acc) rest2
        else if e = 'f' then parseStrBody fuel ('\x0c' :: acc) rest2
        else if e = 'n' then parseStrBody fuel ('\n' :: acc) rest2
        else if e = 'r' then parseStrBody fuel ('\r' :: acc) rest2
        else if e = 't' then parseStrBody fuel ('\t' :: acc) rest2
        else if e = 'u' then
          match parseHex4 rest2 with
          | none => none
          | some (n, rest3) =>
            if 0xD800 ≤ n ∧ n ≤ 0xDBFF then
              match rest3 with
              | '\\' :: 'u' :: rest4 =>
                match parseHex4 rest4 with
                | some (m, rest5) =>
                  if 0xDC00 ≤ m ∧ m ≤ 0xDFFF then
                    parseStrBody fuel
                      (Char.ofNat (0x10000 + (n - 0xD800) * 0x400 + (m - 0xDC00)) :: acc)
                      rest5
                  else none
                | none => none
              | _ => none
            else if 0xDC00 ≤ n ∧ n ≤ 0xDFFF then none
            else parseStrBody fuel (Char.ofNat n :: acc) rest3
        else none
    else if c.toNat < 0x20 then none
    else parseStrBody fuel (c :: acc) rest

def isDigit (c : Char) : Bool := '0' ≤ c && c ≤ '9'

def digitsToNat (acc : Nat) : List Char → Nat × List Char
  | c :: cs => if isDigit c then digitsToNat (acc * 10 + (c.toNat - '0'.toNat)) cs
               else (acc, c :: cs)
  | [] => (acc, [])

/-- JSON number literal.  Yields the integer part and whether the literal was
a plain integer within `i64` range. -/
def parseNum (cs : List Char) : Option (Json × List Char) :=
  let (neg, cs1) := match cs with
    | '-' :: rest => (true, rest)
    | _ => (false, cs)
  match cs1 with
  | c :: _ =>
    if ¬ isDigit c then none
    else if c == '0' && (match cs1 with
      | _ :: d :: _ => isDigit d
      | _ => false) then none
    else
      let (intPart, cs2) := digitsToNat 0 cs1
      let (hasFrac, cs3) := match cs2 with
        | '.' :: d :: rest =>
          if isDigit d then (true, (digitsToNat 0 (d :: rest)).2) else (true, [])
        | _ => (false, cs2)
      let fracOk := match cs2 with
        | '.' :: d :: _ => isDigit d
        | '.' :: [] => false
        | _ => true
      let (hasExp, cs4) := match cs3 with
        | e :: rest =>
          if e = 'e' ∨ e = 'E' then
            let rest2 := match rest with
              | '+' :: r => r
              | '-' :: r => r
              | r => r
            (true, (digitsToNat 0 rest2).2)
          else (false, cs3)
        | [] => (false, cs3)
      let expOk := match cs3 with
        | e :: rest =>
          if e = 'e' ∨ e = 'E' then
            (match rest with
              | '+' :: d :: _ => isDigit d
              | '-' :: d :: _ => isDigit d
              | d :: _ => isDigit d
              | [] => false)
          else true
        | [] => true
      if ¬ fracOk ∨ ¬ expOk then none
      else
        let value : Int := if neg then -(intPart : Int) else (intPart : Int)
        let intLike := !hasFrac && !hasExp &&
          decide (-(2 ^ 63 : Int) ≤ value) && decide (value < 2 ^ 63)
        some (Json.num value intLike, if hasFrac ∨ hasExp then cs4 else cs2)
  | [] => none

mutual

def parseVal (fuel : Nat) (cs : List Char) : Option (Json × List Char) :=
  match fuel with
  | 0 => none
  | fuel + 1 =>
    match skipWs cs with
    | [] => none
    | c :: rest =>
      if c = '"' then
        (parseStrBody (rest.length + 1) [] rest).map (fun p => (Json.str p.1, p.2))
      else if c = '\x7b' then
        parseObjBody fuel [] rest
      else if c = '[' then
        parseArrBody fuel [] rest
      else if leadsWith "true".data (c :: rest) then
        some (Json.bool true, (c :: rest).drop 4)
      else if leadsWith "false".data (c :: rest) then
        some (Json.bool false, (c :: rest).drop 5)
      else if leadsWith "null".data (c :: rest) then
        some (Json.null, (c :: rest).drop 4)
      else
        parseNum (c :: rest)

def parseObjBody (fuel : Nat) (acc : List (String × Json)) (cs : List Char) :
    Option (Json × List Char) :=
  match fuel with
  | 0 => none
  | fuel + 1 =>
    match skipWs cs with
    | [] => none
    | c :: rest =>
      if c == '\x7d' && acc.isEmpty then some (Json.obj [], rest)
      else
        match (if c = '"' then parseStrBody (rest.length + 1) [] rest else none) with
        | none => none
        | some (key, rest2) =>
          match skipWs rest2 with
          | ':' :: rest3 =>
            match parseVal fuel rest3 with
            | none => none
            | some (v, rest4) =>
              let acc2 := Json.objInsert key v acc
              match skipWs rest4 with
              | ',' :: rest5 => parseObjBody fuel acc2 rest5
              | '\x7d' :: rest5 => some (Json.obj acc2, rest5)
              | _ => none
          | _ => none

def parseArrBody (fuel : Nat) (acc : List Json) (cs : List Char) :
    Option (Json × List Char) :=
  match fuel with
  | 0 => none
  | fuel + 1 =>
    match skipWs cs with
    | [] => none
    | c :: rest =>
      if c == ']' && acc.isEmpty then some (Json.arr [], rest)
      else
        match parseVal fuel (c :: rest) with
        | none => none
        | some (v, rest2) =>
          match skipWs rest2 with
          | ',' :: rest3 => parseArrBody fuel (acc ++ [v]) rest3
          | ']' :: rest3 => some (Json.arr (acc ++ [v]), rest3)
          | _ => none

end

/-- `serde_json::from_str::<Value>`: parse one value and require only
whitespace after it. -/
def jsonParse (s : String) : Option Json :=
  match parseVal (s.length + 8) s.data with
  | some (v, rest) => if skipWs rest = [] then some v else none
  | none => none

/-! ### A `serde_json` renderer (`Value`'s `Display`, compact form) -/

def escStrChar (c : Char) : List Char :=
  if c = '"' then ['\\', '"']
  else if c = '\\' then ['\\', '\\']
  else if c = '\n' then ['\\', 'n']
  else if c = '\r' then ['\\', 'r']
  else if c = '\t' then ['\\', 't']
  else if c = '\x08' then ['\\', 'b']
  else if c = '\x0c' then ['\\', 'f']
  else if c.toNat < 0x20 then
    let lo := c.toNat % 16
    let hi := c.toNat / 16
    let hexDigit := fun (n : Nat) => if n < 10 then Char.ofNat ('0'.toNat + n)
      else Char.ofNat ('a'.toNat + n - 10)
    ['\\', 'u', '0', '0', hexDigit hi, hexDigit lo]
  else [c]

def renderStr (s : String) : String :=
  "\"" ++ ⟨s.data.flatMap escStrChar⟩ ++ "\""

mutual

def renderJson : Json → String
  | Json.null => "null"
  | Json.bool true => "true"
  | Json.bool false => "false"
  | Json.num n _ => toString n
  | Json.str s => renderStr s
  | Json.arr xs => "[" ++ renderJsonList xs ++ "]"
  | Json.obj fields => "\x7b" ++ renderJsonFields fields ++ "\x7d"

def renderJsonList : List Json → String
  | [] => ""
  | [x] => renderJson x
  | x :: rest => renderJson x ++ "," ++ renderJsonList rest

def renderJsonFields : List (String × Json) → String
  | [] => ""
  | [(k, v)] => renderStr k ++ ":" ++ renderJson v
  | (k, v) :: rest => renderStr k ++ ":" ++ renderJson v ++ "," ++ renderJsonFields rest

end

/-! ### Data model (`commands.rs` structs and the SQLite tables in scope) -/

structure AgentMessage where
  role : String
  content : String
  deriving Inhabited

structure AgentActionProposal where
  id : String
  type : String
  title : String
  reason : String
  payload : Json
  requires_approval : Bool
  deriving Inhabited

structure AgentChatResponse where
  reply : String
  actions : List AgentActionProposal
  deriving Inhabited

structure AgentExecutionAuditRecord where
  id : String
  batch_id : String
  action_id : String
  action_type : String
  payload : Json
  before_state : Option Json
  after_state : Option Json
  success : Bool
  error : Option String
  created_at : String
  deriving Inhabited

structure AgentExecuteActionsResponse where
  success : Bool
  batch_id : String
  message : String
  records : List AgentExecutionAuditRecord
  deriving Inhabited

/-- Row of the `todos` table (columns touched by the executor; `completed`
defaults to 0 on insert). -/
structure Todo where
  id : String
  title : String
  completed : Bool
  priority : String
  deriving Inhabited

/-- Row of the `projects` table. -/
structure Project where
  id : String
  title : String
  deadline : String
  progress : Int
  status : String
  deriving Inhabited

/-- Row of the `events` table. -/
structure EventRow where
  id : String
  title : String
  date : String
  color : String
  note : Option String
  deriving Inhabited

/-- Row of the `personal_tasks` table (`budget REAL` is carried as the integer
approximation of the JSON number, which nothing in scope inspects). -/
structure PersonalTask where
  id : String
  title : String
  budget : Option Int
  date : Option String
  location : Option String
  note : Option String
  deriving Inhabited

/-- The SQLite data store restricted to the four tables the batch executor
mutates. -/
structure Store where
  todos : List Todo
  projects : List Project
  events : List EventRow
  personal : List PersonalTask
  deriving Inhabited

/-- The ambient clock: one sample of `chrono::Utc::now()` in its three uses
(millisecond timestamp for generated ids, nanosecond timestamp for audit ids,
RFC 3339 text for `created_at`). -/
structure ExecEnv where
  nowMillis : Nat
  nowNanos : Nat
  nowRfc3339 : String
  deriving Inhabited

/-! ### Field access and validation -/

/-- `get_required_str`: the field must be present, be a string, and be
non-empty after trimming. -/
def get_required_str (payload : Json) (key : String) : Except String String :=
  match ((payload.get key).bind Json.asStr).filter
      (fun value => !(strTrim value).isEmpty) with
  | some value => .ok value
  | none => .error ("Missing required field: " ++ key)

/-- `get_optional_str`: same chain as `get_required_str` but absence is
`none` instead of an error. -/
def get_optional_str (payload : Json) (key : String) : Option String :=
  ((payload.get key).bind Json.asStr).filter
    (fun value => !(strTrim value).isEmpty)

def allowedActionTypes : List String :=
  ["todo.create", "todo.update", "todo.delete",
   "project.create", "project.update_progress", "project.delete",
   "event.create", "event.update", "event.delete",
   "personal.create", "personal.update", "personal.delete",
   "query.snapshot"]

/-- `validate_action`: closed type vocabulary, payload must be an object. -/
def validate_action (action_type : String) (payload : Json) : Except String Unit :=
  if ¬ allowedActionTypes.contains action_type then
    .error ("Action is not allowed: " ++ action_type)
  else if ¬ payload.isObject then
    .error "Action payload must be an object"
  else
    .ok ()

/-- Rust's `as i32` cast applied to the `progress` value. -/
def i64toI32 (n : Int) : Int :=
  (n + 2 ^ 31) % 2 ^ 32 - 2 ^ 31

/-- The generated-id expression
`payload.get("id").and_then(as_str).unwrap_or(now.timestamp_millis())` —
note: no emptiness filter here, unlike `get_optional_str`. -/
def payloadIdOr (env : ExecEnv) (payload : Json) : String :=
  ((payload.get "id").bind Json.asStr).getD (toString env.nowMillis)

/-! ### `execute_action_with_transaction`

Each branch mirrors one arm of the Rust `match`; the SQL statements become
list operations on the threaded `Store` (`INSERT` appends, `UPDATE ... WHERE
id = ?` maps over matching rows, `DELETE` filters). -/

def execute_action_with_transaction (env : ExecEnv) (tx : Store)
    (action : AgentActionProposal) : Except String (Store × String) :=
  match action.type with
  | "todo.create" => do
    let title ← get_required_str action.payload "title"
    let priority := (get_optional_str action.payload "priority").getD "normal"
    let id := payloadIdOr env action.payload
    pure ({ tx with todos := tx.todos ++ [⟨id, title, false, priority⟩] },
      "待办已创建")
  | "todo.update" => do
    let id ← get_required_str action.payload "id"
    let title := get_optional_str action.payload "title"
    let completed := (action.payload.get "completed").bind Json.asBool
    let priority := get_optional_str action.payload "priority"
    if title = none ∧ completed = none ∧ priority = none then
      throw "todo.update 缺少可更新字段"
    else
      pure ({ tx with todos := tx.todos.map (fun row =>
        if row.id = id then
          { row with
            title := title.getD row.title
            completed := completed.getD row.completed
            priority := priority.getD row.priority }
        else row) }, "待办已更新")
  | "todo.delete" => do
    let id ← get_required_str action.payload "id"
    pure ({ tx with todos := tx.todos.filter (fun row => row.id ≠ id) },
      "待办已删除")
  | "project.create" => do
    let title ← get_required_str action.payload "title"
    let deadline ← get_required_str action.payload "deadline"
    let id := payloadIdOr env action.payload
    pure ({ tx with projects := tx.projects ++ [⟨id, title, deadline, 0, "active"⟩] },
      "项目已创建")
  | "project.update_progress" => do
    let id ← get_required_str action.payload "id"
    match (action.payload.get "progress").bind Json.asI64 with
    | none => throw "project.update_progress 缺少 progress"
    | some progress =>
      pure ({ tx with projects := tx.projects.map (fun row =>
        if row.id = id then { row with progress := i64toI32 progress } else row) },
        "项目进度已更新")
  | "project.delete" => do
    let id ← get_required_str action.payload "id"
    pure ({ tx with projects := tx.projects.filter (fun row => row.id ≠ id) },
      "项目已删除")
  | "event.create" => do
    let title ← get_required_str action.payload "title"
    let date ← get_required_str action.payload "date"
    let color := (get_optional_str action.payload "color").getD "blue"
    let note := get_optional_str action.payload "note"
    let id := payloadIdOr env action.payload
    pure ({ tx with events := tx.events ++ [⟨id, title, date, color, note⟩] },
      "日程已创建")
  | "event.update" => do
    let id ← get_required_str action.payload "id"
    let title := get_optional_str action.payload "title"
    let date := get_optional_str action.payload "date"
    let color := get_optional_str action.payload "color"
    let note := get_optional_str action.payload "note"
    if title = none ∧ date = none ∧ color = none ∧ note = none then
      throw "event.update 缺少可更新字段"
    else
      pure ({ tx with events := tx.events.map (fun row =>
        if row.id = id then
          { row with
            title := title.getD row.title
            date := date.getD row.date
            color := color.getD row.color
            note := match note with
              | some value => some value
              | none => row.note }
        else row) }, "日程已更新")
  | "event.delete" => do
    let id ← get_required_str action.payload "id"
    pure ({ tx with events := tx.events.filter (fun row => row.id ≠ id) },
      "日程已删除")
  | "personal.create" => do
    let title ← get_required_str action.payload "title"
    let id := payloadIdOr env action.payload
    let budget := (action.payload.get "budget").bind Json.asF64
    let date := get_optional_str action.payload "date"
    let location := get_optional_str action.payload "location"
    let note := get_optional_str action.payload "note"
    pure ({ tx with personal := tx.personal ++ [⟨id, title, budget, date, location, note⟩] },
      "个人事务已创建")
  | "personal.update" => do
    let id ← get_required_str action.payload "id"
    let title := get_optional_str action.payload "title"
    let budget := (action.payload.get "budget").bind Json.asF64
    let date := get_optional_str action.payload "date"
    let location := get_optional_str action.payload "location"
    let note := get_optional_str action.payload "note"
    if title = none ∧ budget = none ∧ date = none ∧ location = none ∧ note = none then
      throw "personal.update 缺少可更新字段"
    else
      pure ({ tx with personal := tx.personal.map (fun row =>
        if row.id = id then
          { row with
            title := title.getD row.title
            budget := match budget with
              | some value => some value
              | none => row.budget
            date := match date with
              | some value => some value
              | none => row.date
            location := match location with
              | some value => some value
              | none => row.location
            note := match note with
              | some value => some value
              | none => row.note }
        else row) }, "个人事务已更新")
  | "personal.delete" => do
    let id ← get_required_str action.payload "id"
    pure ({ tx with personal := tx.personal.filter (fun row => row.id ≠ id) },
      "个人事务已删除")
  | "query.snapshot" => pure (tx, "当前快照已生成")
  | _ => throw ("Unsupported action type: " ++ action.type)

/-! ### `agent_execute_actions_atomic`

The `for` loop over the batch.  `store0` is the data store as it was when the
transaction opened; the threaded `tx` is the transaction's view.  The failure
arm returns `store0` (the `tx.rollback()`), discards the accumulated success
records and answers with the single failure record; the empty-list arm is the
`tx.commit()`.  A validation error propagates with `?` as a hard `Err` — it
produces no audit record and no response object. -/

def auditIdOf (env : ExecEnv) : String := "audit-" ++ toString env.nowNanos

def batchIdOf (env : ExecEnv) : String := "batch-" ++ toString env.nowMillis

def successRecord (env : ExecEnv) (bid now : String) (action : AgentActionProposal)
    (message : String) : AgentExecutionAuditRecord :=
  { id := auditIdOf env, batch_id := bid, action_id := action.id
    action_type := action.type, payload := action.payload
    before_state := none
    after_state := some (Json.obj [("message", Json.str message)])
    success := true, error := none, created_at := now }

def failureRecord (env : ExecEnv) (bid now : String) (action : AgentActionProposal)
    (error : String) : AgentExecutionAuditRecord :=
  { id := auditIdOf env, batch_id := bid, action_id := action.id
    action_type := action.type, payload := action.payload
    before_state := none, after_state := none
    success := false, error := some error, created_at := now }

def execLoop (env : ExecEnv) (store0 : Store) (bid now : String) :
    Store → List AgentExecutionAuditRecord → List AgentActionProposal →
    Except String (Store × AgentExecuteActionsResponse)
  | tx, records, [] =>
    .ok (tx, { success := true, batch_id := bid, message := "批量动作已执行",
               records := records })
  | tx, records, action :: rest =>
    match validate_action action.type action.payload with
    | .error e => .error e
    | .ok _ =>
      match execute_action_with_transaction env tx action with
      | .ok (tx2, message) =>
        execLoop env store0 bid now tx2
          (records ++ [successRecord env bid now action message]) rest
      | .error err =>
        .ok (store0,
          { success := false, batch_id := bid, message := err,
            records := [failureRecord env bid now action err] })

def agent_execute_actions_atomic (env : ExecEnv) (store : Store)
    (actions : List AgentActionProposal) :
    Except String (Store × AgentExecuteActionsResponse) :=
  execLoop env store (batchIdOf env) env.nowRfc3339 store [] actions

/-! ### Response normalizer -/

/-- Brace-span fallback of `extract_json_block`: `content[start..=end]` for
the first `'{'` and last `'}'`.  When the first `'{'` sits more than one
position after the last `'}'` the Rust slice panics — modelled as `none`. -/
def braceSpan (content : String) : Option String :=
  match findChar '\x7b' content.data with
  | some start =>
    match rfindChar '\x7d' content.data with
    | some last =>
      if start ≤ last + 1 then
        some ⟨(content.data.drop start).take (last + 1 - start)⟩
      else none
    | none => some (strTrim content)
  | none => some (strTrim content)

/-- `extract_json_block`: fenced ```json block first, then brace span, then
the trimmed raw text.  `none` is the slice panic in the brace fallback. -/
def extract_json_block (content : String) : Option String :=
  match findSub "```json".data content.data with
  | some start =>
    match findSub "```".data (content.data.drop (start + 7)) with
    | some stop => some ⟨trimChars ((content.data.drop (start + 7)).take stop)⟩
    | none => braceSpan content
  | none => braceSpan content

/-- `serde::Deserialize` for one `AgentActionProposal` (camelCase field
names; every field required, `payload` an arbitrary value). -/
def actionFromJson (v : Json) : Option AgentActionProposal := do
  let id ← (v.get "id").bind Json.asStr
  let ty ← (v.get "type").bind Json.asStr
  let title ← (v.get "title").bind Json.asStr
  let reason ← (v.get "reason").bind Json.asStr
  let payload ← v.get "payload"
  let ra ← (v.get "requiresApproval").bind Json.asBool
  pure ⟨id, ty, title, reason, payload, ra⟩

/-- `serde_json::from_value::<Vec<AgentActionProposal>>`: an array each of
whose elements deserializes; one malformed element fails the whole list. -/
def actionsFromJson : Json → Option (List AgentActionProposal)
  | Json.arr xs => xs.mapM actionFromJson
  | _ => none

/-- `parse_llm_response`.  The outer `none` is the panic propagated from
`extract_json_block`.  (The Rust error text for a failed actions parse embeds
the serde error message; the model keeps the fixed part.) -/
def parse_llm_response (content : String) :
    Option (Except String AgentChatResponse) :=
  match extract_json_block content with
  | none => none
  | some normalized =>
    some (match jsonParse normalized with
      | some value =>
        let reply := ((value.get "reply").bind Json.asStr).getD "已生成建议。"
        let actions := (value.get "actions").getD (Json.arr [])
        match actionsFromJson actions with
        | some parsed => .ok ⟨reply, parsed⟩
        | none => .error "LLM actions parse failed"
      | none =>
        let plain := strTrim content
        if plain.isEmpty then .error "LLM returned empty content"
        else .ok ⟨plain, []⟩)

/-! ### Provider settings and the deterministic fallback -/

structure AgentProviderConfig where
  base_url : String
  api_key : String
  model : String
  api_version : Option String
  deriving Inhabited

structure AgentCodexConfig where
  enabled : Bool
  binary_path : Option String
  prefer_mcp : Bool
  exec_args : List String
  mcp_args : List String
  request_timeout_ms : Nat
  deriving Inhabited

def default_codex_exec_args : List String :=
  ["exec", "--json", "--skip-git-repo-check"]

def default_codex_mcp_args : List String := ["mcp-server"]

def default_codex_timeout_ms : Nat := 120000

structure AgentSettings where
  provider : String
  openai : AgentProviderConfig
  anthropic : AgentProviderConfig
  minimax : AgentProviderConfig
  codex : AgentCodexConfig
  deriving Inhabited

/-- `local_fallback_response`: deterministic reply from the snapshot counts
plus exactly one `query.snapshot` proposal requiring approval. -/
def local_fallback_response (env : ExecEnv) (messages : List AgentMessage)
    (snapshot : Json) (error : Option String) : AgentChatResponse :=
  let latest_user := ((messages.reverse.find? (fun m => m.role = "user")).map
    (fun m => m.content)).getD "请根据当前工作台数据给出建议"
  let pending_todos :=
    (((snapshot.get "pendingTodos").bind Json.asArr).map List.length).getD 0
  let today_events :=
    (((snapshot.get "todayEvents").bind Json.asArr).map List.length).getD 0
  let reply := "我已读取当前工作台数据。你刚才说的是“" ++ latest_user ++
    "”。当前未完成待办 " ++ toString pending_todos ++ " 项、今日日程 " ++
    toString today_events ++ " 项。"
  let reply := match error with
    | some reason => reply ++ " 模型服务暂不可用（" ++ reason ++ "），已切换为本地建议模式。"
    | none => reply
  { reply := reply
    actions := [{ id := "snapshot-" ++ toString env.nowMillis
                  type := "query.snapshot"
                  title := "生成当前快照"
                  reason := "用于后续进一步规划和动作确认"
                  payload := Json.obj []
                  requires_approval := true }] }

/-! ### Local runtime adapter -/

/-- What happened to one spawned subprocess, as data: it failed to run, or it
ran to completion after `elapsedMs` wall-clock milliseconds with an exit
status (`statusText` is the rendering used in error messages) and captured
output.  A `failed` outcome is one delivered inside the timeout window. -/
inductive SpawnOutcome where
  | failed : String → SpawnOutcome
  | ran : Nat → Bool → String → String → String → SpawnOutcome
  deriving Inhabited

/-- The timeout handed to `tokio::time::timeout`:
`Duration::from_millis(config.request_timeout_ms.max(1000))`. -/
def codexTimeoutMs (config : AgentCodexConfig) : Nat :=
  max config.request_timeout_ms 1000

/-- The argument vector of a `codex exec` invocation: configured override or
the default template, plus the prompt as trailing argument. -/
def codexExecArgsWith (config : AgentCodexConfig) (prompt : String) : List String :=
  (if config.exec_args.isEmpty then default_codex_exec_args else config.exec_args)
    ++ [prompt]

/-- Scan of the newline-delimited JSON event records in `codex` stdout:
prefer the first record with `payload.reply` (re-rendered as a
`{reply, actions}` object, keys in `BTreeMap` order), else remember the last
`agent_message` item's text. -/
def codexScan (stdoutAll : String) (candidate : Option String) :
    List String → String
  | [] => candidate.getD stdoutAll
  | line :: rest =>
    let trimmed := strTrim line
    if ¬ headIs trimmed '\x7b' then codexScan stdoutAll candidate rest
    else
      match jsonParse trimmed with
      | none => codexScan stdoutAll candidate rest
      | some value =>
        match ((value.get "payload").bind (fun p => p.get "reply")).bind Json.asStr with
        | some payload_reply =>
          renderJson (Json.obj
            [("actions",
               ((value.get "payload").bind (fun p => p.get "actions")).getD (Json.arr [])),
             ("reply", Json.str payload_reply)])
        | none =>
          if ((value.get "item").bind (fun i => i.get "type")).bind Json.asStr
              = some "agent_message" then
            match ((value.get "item").bind (fun i => i.get "text")).bind Json.asStr with
            | some text => codexScan stdoutAll (some text) rest
            | none => codexScan stdoutAll candidate rest
          else codexScan stdoutAll candidate rest

def extract_codex_last_message (stdout : String) : String :=
  codexScan stdout none (rustLines stdout)

/-- `run_codex_exec`: bounded wait on the subprocess.  The prompt reaches the
child through `codexExecArgsWith`; the child's behaviour is the `outcome`
argument.  Expiry of the window wins over everything else. -/
def run_codex_exec (_binary : String) (config : AgentCodexConfig)
    (_prompt : String) (outcome : SpawnOutcome) : Except String String :=
  match outcome with
  | .failed e => .error ("Failed to run codex exec: " ++ e)
  | .ran elapsedMs statusOk statusText stdout stderr =>
    if codexTimeoutMs config < elapsedMs then .error "Codex exec timed out"
    else if statusOk then
      let out := strTrim stdout
      if out.isEmpty then .error "Codex exec returned empty output"
      else .ok (extract_codex_last_message out)
    else
      let err := strTrim stderr
      .error ("Codex exec failed (status " ++ statusText ++ "): "
        ++ (if err.isEmpty then "no stderr" else err))

def genericIdentityTemplate : String :=
  "我是 zhaoxi workbench agent。你可以直接告诉我你的安排目标，我会先给出可执行计划，再由你确认执行。"

/-- `is_generic_identity_reply`: trim, lowercase, then match the known
boilerplate patterns. -/
def is_generic_identity_reply (reply : String) : Bool :=
  let text := lowerStr (strTrim reply)
  containsSub text "基于 codex" || containsSub text "gpt-5"
    || text == genericIdentityTemplate

def build_system_prompt (snapshot : Json) : String :=
  "你是 ZhaoXi Workbench Agent。你必须基于上下文数据给出清晰建议，并且仅输出 JSON，结构为: \x7b\"reply\":\"string\",\"actions\":[\x7b\"id\":\"string\",\"type\":\"string\",\"title\":\"string\",\"reason\":\"string\",\"payload\":\x7b\x7d,\"requiresApproval\":false\x7d]\x7d。"
    ++ "action type 只能使用: todo.create,todo.update,todo.delete,project.create,project.update_progress,project.delete,event.create,event.update,event.delete,personal.create,personal.update,personal.delete,query.snapshot。"
    ++ "你必须直接回答用户问题，禁止固定自我介绍或与问题无关的模板句。"
    ++ "如果不需要动作，actions 返回空数组。"
    ++ "当前上下文: " ++ renderJson snapshot

def build_codex_prompt (messages : List AgentMessage) (snapshot : Json) : String :=
  let latest_user := ((messages.reverse.find? (fun m => m.role = "user")).map
    (fun m => m.content)).getD "请根据当前工作台快照给出建议"
  let conversation :=
    String.intercalate "\n" (messages.map (fun m => m.role ++ ": " ++ m.content))
  build_system_prompt snapshot ++ "\n\n用户最后一条消息:\n" ++ latest_user
    ++ "\n\n上下文快照:\n" ++ renderJson snapshot
    ++ "\n\n历史消息:\n" ++ conversation
    ++ "\n\n请严格按 JSON 返回，并且回复内容必须针对“用户最后一条消息”，禁止固定模板。"

/-- The reinforcement appended to the prompt for the single retry. -/
def retrySuffix : String :=
  "\n\n请注意：不要做身份介绍，也不要回复固定模板。请直接回答用户最后一个问题，并给出可执行动作（如果需要）。"

/-- External effects of one `call_codex_local` run: the outcome of binary
resolution and of each successive `codex exec` subprocess. -/
structure CodexWorld where
  resolve : Except String String
  runs : List SpawnOutcome
  deriving Inhabited

/-- Outcome of the `i`-th subprocess spawn of a run. -/
def runAt (world : CodexWorld) (i : Nat) : SpawnOutcome :=
  world.runs.getD i (SpawnOutcome.failed "no run")

/-- `call_codex_local`, instrumented with the number of `codex exec`
invocations actually issued (the optional MCP capability probe is a separate
`--help` health check that never affects the result and is not counted).
Outer `none` is a panic propagated from the normalizer. -/
def call_codex_localCore (settings : AgentSettings) (messages : List AgentMessage)
    (snapshot : Json) (world : CodexWorld) :
    Option (Except String AgentChatResponse) × Nat :=
  if ¬ settings.codex.enabled then
    (some (.error "Codex local runtime is disabled"), 0)
  else
    match world.resolve with
    | .error e => (some (.error e), 0)
    | .ok binary =>
      match run_codex_exec binary settings.codex (build_codex_prompt messages snapshot)
          (runAt world 0) with
      | .error e => (some (.error e), 1)
      | .ok content =>
        match parse_llm_response content with
        | none => (none, 1)
        | some (.error e) => (some (.error e), 1)
        | some (.ok parsed) =>
          if is_generic_identity_reply parsed.reply && parsed.actions.isEmpty then
            match run_codex_exec binary settings.codex
                (build_codex_prompt messages snapshot ++ retrySuffix)
                (runAt world 1) with
            | .error e => (some (.error e), 2)
            | .ok retry_content =>
              match parse_llm_response retry_content with
              | none => (none, 2)
              | some (.error e) => (some (.error e), 2)
              | some (.ok parsed2) => (some (.ok parsed2), 2)
          else (some (.ok parsed), 1)

def call_codex_local (settings : AgentSettings) (messages : List AgentMessage)
    (snapshot : Json) (world : CodexWorld) :
    Option (Except String AgentChatResponse) :=
  (call_codex_localCore settings messages snapshot world).1

/-- Number of `codex exec` invocations issued by one `call_codex_local`. -/
def codexExecCalls (settings : AgentSettings) (messages : List AgentMessage)
    (snapshot : Json) (world : CodexWorld) : Nat :=
  (call_codex_localCore settings messages snapshot world).2

/-! ### Provider router and chat entry point -/

/-- External effects of one `call_provider` dispatch: the remote HTTP
exchange of the selected provider, seen as either a transport/status/shape
error or the extracted content text, plus the codex world. -/
structure ProviderWorld where
  http : Except String String
  codex : CodexWorld
  deriving Inhabited

/-- `call_provider` together with the remote-call bodies of `call_openai`,
`call_anthropic` and `call_minimax`: the empty-credential check is the pure
prefix of each remote path; everything after it (endpoint, transport, HTTP
status, body shape) is folded into `world.http`. -/
def call_provider (settings : AgentSettings) (messages : List AgentMessage)
    (snapshot : Json) (world : ProviderWorld) :
    Option (Except String AgentChatResponse) :=
  match settings.provider with
  | "openai" =>
    if (strTrim settings.openai.api_key).isEmpty then
      some (.error "OpenAI API key is empty")
    else
      match world.http with
      | .error e => some (.error e)
      | .ok content => parse_llm_response content
  | "anthropic" =>
    if (strTrim settings.anthropic.api_key).isEmpty then
      some (.error "Anthropic API key is empty")
    else
      match world.http with
      | .error e => some (.error e)
      | .ok content => parse_llm_response content
  | "minimax" =>
    if (strTrim settings.minimax.api_key).isEmpty then
      some (.error "MiniMax API key is empty")
    else
      match world.http with
      | .error e => some (.error e)
      | .ok content => parse_llm_response content
  | "codex_local" => call_codex_local settings messages snapshot world.codex
  | _ => some (.error ("Unsupported provider: " ++ settings.provider))

/-- `agent_chat`.  The context snapshot (a database read) is an input; stage
events and session persistence are fire-and-forget and not modelled.  On a
provider error the deterministic fallback is returned; on success with
actions, the batch executor runs and its summary is folded into the reply —
note the `?` on that call: a hard executor error (such as a validation
failure) propagates to the caller.  Outer `none` is a provider panic. -/
def agent_chat (env : ExecEnv) (store : Store) (settings : AgentSettings)
    (messages : List AgentMessage) (snapshot : Json) (world : ProviderWorld) :
    Option (Except String (Store × AgentChatResponse)) :=
  match call_provider settings messages snapshot world with
  | none => none
  | some (.error error) =>
    some (.ok (store, local_fallback_response env messages snapshot (some error)))
  | some (.ok response) =>
    some (
      if response.actions.isEmpty then
        .ok (store, response)
      else
        match agent_execute_actions_atomic env store response.actions with
        | .error e => .error e
        | .ok (store2, execution) =>
          let reply :=
            if execution.success then
              response.reply ++ "\n\n已自动执行 " ++ toString execution.records.length
                ++ " 条动作（batch: " ++ execution.batch_id ++ "）。"
            else
              response.reply ++ "\n\n自动执行失败（batch: " ++ execution.batch_id
                ++ "）：" ++ execution.message
          .ok (store2, { reply := reply, actions := [] }))

set_option maxRecDepth 100000

/-! ### Proof infrastructure for the batch executor -/

/-- Validate-then-execute of a list of actions in input order, tracking only
the transaction state: the induction skeleton of the batch loop. -/
def execActions (env : ExecEnv) : Store → List AgentActionProposal → Except String Store
  | tx, [] => .ok tx
  | tx, action :: rest =>
    match validate_action action.type action.payload with
    | .error e => .error e
    | .ok _ =>
      match execute_action_with_transaction env tx action with
      | .error e => .error e
      | .ok (tx2, _) => execActions env tx2 rest

lemma execLoop_ok_of_execActions (env : ExecEnv) (store0 : Store) (bid now : String) :
    ∀ (actions : List AgentActionProposal) (tx txF : Store)
      (recs : List AgentExecutionAuditRecord),
      execActions env tx actions = .ok txF →
      ∃ recs2, execLoop env store0 bid now tx recs actions =
          .ok (txF, { success := true, batch_id := bid, message := "批量动作已执行",
                      records := recs ++ recs2 }) ∧
        recs2.length = actions.length ∧ ∀ r ∈ recs2, r.success = true := by
  intro actions
  induction actions with
  | nil =>
    intro tx txF recs h
    refine ⟨[], ?_, rfl, by simp⟩
    simp only [execActions] at h
    cases h
    simp [execLoop]
  | cons a rest ih =>
    intro tx txF recs h
    simp only [execActions] at h
    cases hval : validate_action a.type a.payload with
    | error e => rw [hval] at h; cases h
    | ok u =>
      rw [hval] at h
      cases hexec : execute_action_with_transaction env tx a with
      | error e => rw [hexec] at h; cases h
      | ok p =>
        rw [hexec] at h
        obtain ⟨tx2, msg⟩ := p
        obtain ⟨recs2, hloop, hlen, hsucc⟩ :=
          ih tx2 txF (recs ++ [successRecord env bid now a msg]) h
        refine ⟨successRecord env bid now a msg :: recs2, ?_, by simp [hlen], ?_⟩
        · simp only [execLoop, hval, hexec]
          rw [hloop]
          simp
        · intro r hr
          rcases List.mem_cons.mp hr with h1 | h2
          · rw [h1]; rfl
          · exact hsucc r h2

lemma execLoop_append_of_execActions (env : ExecEnv) (store0 : Store)
    (bid now : String) :
    ∀ (pre : List AgentActionProposal) (tx tx2 : Store)
      (recs : List AgentExecutionAuditRecord) (rest : List AgentActionProposal),
      execActions env tx pre = .ok tx2 →
      ∃ recs2, execLoop env store0 bid now tx recs (pre ++ rest) =
        execLoop env store0 bid now tx2 (recs ++ recs2) rest := by
  intro pre
  induction pre with
  | nil =>
    intro tx tx2 recs rest h
    simp only [execActions] at h
    cases h
    exact ⟨[], by simp⟩
  | cons a pre2 ih =>
    intro tx tx2 recs rest h
    simp only [execActions] at h
    cases hval : validate_action a.type a.payload with
    | error e => rw [hval] at h; cases h
    | ok u =>
      rw [hval] at h
      cases hexec : execute_action_with_transaction env tx a with
      | error e => rw [hexec] at h; cases h
      | ok p =>
        rw [hexec] at h
        obtain ⟨txm, msg⟩ := p
        obtain ⟨recs2, hloop⟩ :=
          ih txm tx2 (recs ++ [successRecord env bid now a msg]) rest h
        refine ⟨successRecord env bid now a msg :: recs2, ?_⟩
        simp only [List.cons_append, execLoop, hval, hexec, List.append_eq]
        rw [hloop]
        simp

/-- C1: for every batch in which some action is the first whose execution
fails (all earlier actions validate and execute), the call returns
`success = false` with exactly the one failure record, whose `action_id` is
the failing action's id and whose `success` is false; the unattempted tail
produces no records, and the returned store is the store from before the
call — the transaction is fully rolled back. -/
theorem C1_first_execution_failure_rolls_back (env : ExecEnv) (store tx : Store)
    (pre post : List AgentActionProposal) (a : AgentActionProposal) (err : String)
    (hpre : execActions env store pre = .ok tx)
    (hval : validate_action a.type a.payload = .ok ())
    (hexec : execute_action_with_transaction env tx a = .error err) :
    agent_execute_actions_atomic env store (pre ++ a :: post) =
      .ok (store,
        { success := false, batch_id := batchIdOf env, message := err,
          records := [failureRecord env (batchIdOf env) env.nowRfc3339 a err] }) ∧
    (failureRecord env (batchIdOf env) env.nowRfc3339 a err).success = false ∧
    (failureRecord env (batchIdOf env) env.nowRfc3339 a err).action_id = a.id := by
  refine ⟨?_, rfl, rfl⟩
  unfold agent_execute_actions_atomic
  obtain ⟨recs2, hloop⟩ :=
    execLoop_append_of_execActions env store (batchIdOf env) env.nowRfc3339 pre
      store tx [] (a :: post) hpre
  rw [hloop]
  simp only [execLoop, hval, hexec]

/-- Witness for C1: a two-action batch on the empty store whose second action
(`todo.update` without an `id`) is the first execution failure. -/
theorem C1_first_execution_failure_rolls_back_witness :
    agent_execute_actions_atomic ⟨7, 9, "now"⟩ ⟨[], [], [], []⟩
      ([⟨"a1", "todo.create", "t", "r", Json.obj [("title", Json.str "hello")], false⟩] ++
        ⟨"a2", "todo.update", "t", "r", Json.obj [], false⟩ :: []) =
      .ok (⟨[], [], [], []⟩,
        { success := false, batch_id := batchIdOf ⟨7, 9, "now"⟩,
          message := "Missing required field: id",
          records := [failureRecord ⟨7, 9, "now"⟩ (batchIdOf ⟨7, 9, "now"⟩) "now"
            ⟨"a2", "todo.update", "t", "r", Json.obj [], false⟩
            "Missing required field: id"] }) ∧
    (failureRecord ⟨7, 9, "now"⟩ (batchIdOf ⟨7, 9, "now"⟩) "now"
      ⟨"a2", "todo.update", "t", "r", Json.obj [], false⟩
      "Missing required field: id").success = false ∧
    (failureRecord ⟨7, 9, "now"⟩ (batchIdOf ⟨7, 9, "now"⟩) "now"
      ⟨"a2", "todo.update", "t", "r", Json.obj [], false⟩
      "Missing required field: id").action_id = "a2" :=
  C1_first_execution_failure_rolls_back ⟨7, 9, "now"⟩ ⟨[], [], [], []⟩
    ⟨[⟨"7", "hello", false, "normal"⟩], [], [], []⟩
    [⟨"a1", "todo.create", "t", "r", Json.obj [("title", Json.str "hello")], false⟩] []
    ⟨"a2", "todo.update", "t", "r", Json.obj [], false⟩
    "Missing required field: id" rfl rfl rfl

/-- C2: for every batch in which every action validates and executes (the
empty batch included), the call commits: it returns `success = true`, one
record per input action, all with `success = true`, and the returned store is
the fully mutated transaction state. -/
theorem C2_all_success_commits (env : ExecEnv) (store store2 : Store)
    (actions : List AgentActionProposal)
    (h : execActions env store actions = .ok store2) :
    ∃ resp, agent_execute_actions_atomic env store actions = .ok (store2, resp) ∧
      resp.success = true ∧ resp.records.length = actions.length ∧
      ∀ r ∈ resp.records, r.success = true := by
  obtain ⟨recs2, hloop, hlen, hsucc⟩ :=
    execLoop_ok_of_execActions env store (batchIdOf env) env.nowRfc3339 actions
      store store2 [] h
  refine ⟨{ success := true, batch_id := batchIdOf env, message := "批量动作已执行",
            records := [] ++ recs2 }, ?_, rfl, ?_, ?_⟩
  · unfold agent_execute_actions_atomic
    rw [hloop]
  · simpa using hlen
  · simpa using hsucc

/-- Witness for C2: a two-action batch (create a todo, then complete it)
that commits with two success records. -/
theorem C2_all_success_commits_witness :
    ∃ resp, agent_execute_actions_atomic ⟨7, 9, "now"⟩ ⟨[], [], [], []⟩
        [⟨"a1", "todo.create", "t", "r", Json.obj [("title", Json.str "hello")], false⟩,
         ⟨"a2", "todo.update", "t", "r",
           Json.obj [("completed", Json.bool true), ("id", Json.str "7")], false⟩] =
      .ok (⟨[⟨"7", "hello", true, "normal"⟩], [], [], []⟩, resp) ∧
      resp.success = true ∧
      resp.records.length =
        [⟨"a1", "todo.create", "t", "r", Json.obj [("title", Json.str "hello")], false⟩,
         (⟨"a2", "todo.update", "t", "r",
           Json.obj [("completed", Json.bool true), ("id", Json.str "7")],
           false⟩ : AgentActionProposal)].length ∧
      ∀ r ∈ resp.records, r.success = true :=
  C2_all_success_commits ⟨7, 9, "now"⟩ ⟨[], [], [], []⟩
    ⟨[⟨"7", "hello", true, "normal"⟩], [], [], []⟩
    [⟨"a1", "todo.create", "t", "r", Json.obj [("title", Json.str "hello")], false⟩,
     ⟨"a2", "todo.update", "t", "r",
       Json.obj [("completed", Json.bool true), ("id", Json.str "7")], false⟩]
    rfl

/-- C5 counterexample: a batch whose single action has an unsupported type.
The call returns a hard `Err` — it does not return a response carrying a
failure audit record the way execution-time errors do, refuting the claim
that validation errors are surfaced with a single failure audit record. -/
theorem C5_validation_error_counterexample :
    agent_execute_actions_atomic ⟨0, 0, "t"⟩ ⟨[], [], [], []⟩
        [⟨"a1", "note.create", "hi", "r", Json.obj [], false⟩]
      = .error "Action is not allowed: note.create" ∧
    ∀ st resp, agent_execute_actions_atomic ⟨0, 0, "t"⟩ ⟨[], [], [], []⟩
        [⟨"a1", "note.create", "hi", "r", Json.obj [], false⟩] ≠ .ok (st, resp) := by
  have h1 : agent_execute_actions_atomic ⟨0, 0, "t"⟩ ⟨[], [], [], []⟩
      [⟨"a1", "note.create", "hi", "r", Json.obj [], false⟩]
      = .error "Action is not allowed: note.create" := rfl
  refine ⟨h1, ?_⟩
  intro st resp h
  rw [h1] at h
  cases h

/-- C5 amended: a batch containing an action that fails validation (first
such action at any position after a successfully executed prefix) makes
`agent_execute_actions_atomic` return the specific validation message as a
hard top-level error: no response object, hence no audit record at all —
unlike execution-time errors, which return `success = false` with one failure
record. -/
theorem C5_amended_validation_error_is_hard (env : ExecEnv) (store tx : Store)
    (pre post : List AgentActionProposal) (a : AgentActionProposal) (msg : String)
    (hpre : execActions env store pre = .ok tx)
    (hval : validate_action a.type a.payload = .error msg) :
    agent_execute_actions_atomic env store (pre ++ a :: post) = .error msg := by
  unfold agent_execute_actions_atomic
  obtain ⟨recs2, hloop⟩ :=
    execLoop_append_of_execActions env store (batchIdOf env) env.nowRfc3339 pre
      store tx [] (a :: post) hpre
  rw [hloop]
  simp only [execLoop, hval]

/-- Witness for C5 amended: a successfully created todo followed by an action
whose payload is not an object. -/
theorem C5_amended_validation_error_is_hard_witness :
    agent_execute_actions_atomic ⟨7, 9, "now"⟩ ⟨[], [], [], []⟩
      ([⟨"a1", "todo.create", "t", "r", Json.obj [("title", Json.str "hello")], false⟩] ++
        ⟨"a2", "todo.delete", "t", "r", Json.str "not-an-object", false⟩ :: []) =
      .error "Action payload must be an object" :=
  C5_amended_validation_error_is_hard ⟨7, 9, "now"⟩ ⟨[], [], [], []⟩
    ⟨[⟨"7", "hello", false, "normal"⟩], [], [], []⟩
    [⟨"a1", "todo.create", "t", "r", Json.obj [("title", Json.str "hello")], false⟩] []
    ⟨"a2", "todo.delete", "t", "r", Json.str "not-an-object", false⟩
    "Action payload must be an object" rfl rfl

/-- C10: a required string field errors as missing exactly when the optional
reading treats it as absent; the optional reading is absent exactly when the
field is missing, not a string, or whitespace-only after trimming; hence
`todo.create` with title `"  "` fails with a missing-field error, and an
update whose only supplied fields are whitespace-only strings (with a
non-boolean `completed`) fails with the no-updatable-fields error. -/
theorem C10_string_field_emptiness :
    (∀ payload key, get_required_str payload key =
        match get_optional_str payload key with
        | some value => .ok value
        | none => .error ("Missing required field: " ++ key)) ∧
    (∀ payload key, get_optional_str payload key = none ↔
        match (payload.get key).bind Json.asStr with
        | some value => (strTrim value).isEmpty = true
        | none => True) ∧
    execute_action_with_transaction ⟨0, 0, "t"⟩ ⟨[], [], [], []⟩
        ⟨"a", "todo.create", "t", "r", Json.obj [("title", Json.str "  ")], false⟩
      = .error "Missing required field: title" ∧
    execute_action_with_transaction ⟨0, 0, "t"⟩ ⟨[], [], [], []⟩
        ⟨"a", "todo.update", "t", "r",
          Json.obj [("completed", Json.null), ("id", Json.str "1"),
            ("priority", Json.str " \t "), ("title", Json.str "   ")], false⟩
      = .error "todo.update 缺少可更新字段" := by
  refine ⟨?_, ?_, rfl, rfl⟩
  · intro payload key
    unfold get_required_str get_optional_str
    cases ((payload.get key).bind Json.asStr).filter
        (fun value => !(strTrim value).isEmpty) <;> rfl
  · intro payload key
    unfold get_optional_str
    cases hx : (payload.get key).bind Json.asStr with
    | none => simp [hx]
    | some v =>
      by_cases h : (strTrim v).isEmpty <;> simp [Option.filter, h]

/-- C4: whenever the selected provider path fails (for instance an empty
credential makes the provider call return an error), `agent_chat` returns a
non-error response: the deterministic fallback, whose actions list is exactly
one `query.snapshot` proposal with `requires_approval = true`. -/
theorem C4_provider_failure_falls_back (env : ExecEnv) (store : Store)
    (settings : AgentSettings) (messages : List AgentMessage) (snapshot : Json)
    (world : ProviderWorld) (e : String)
    (hfail : call_provider settings messages snapshot world = some (.error e)) :
    agent_chat env store settings messages snapshot world =
      some (.ok (store, local_fallback_response env messages snapshot (some e))) ∧
    (local_fallback_response env messages snapshot (some e)).actions =
      [⟨"snapshot-" ++ toString env.nowMillis, "query.snapshot", "生成当前快照",
        "用于后续进一步规划和动作确认", Json.obj [], true⟩] := by
  constructor
  · unfold agent_chat
    rw [hfail]
  · rfl

/-- Witness for C4: the active provider is `openai` with an empty API key, so
the provider path fails before any network use. -/
theorem C4_provider_failure_falls_back_witness :
    agent_chat ⟨3, 4, "t"⟩ ⟨[], [], [], []⟩
        ⟨"openai", ⟨"u", "", "m", none⟩, ⟨"u", "", "m", none⟩, ⟨"u", "", "m", none⟩,
          ⟨true, none, true, [], [], 0⟩⟩
        [⟨"user", "hi"⟩] (Json.obj []) ⟨.error "ignored", ⟨.error "x", []⟩⟩ =
      some (.ok (⟨[], [], [], []⟩,
        local_fallback_response ⟨3, 4, "t"⟩ [⟨"user", "hi"⟩] (Json.obj [])
          (some "OpenAI API key is empty"))) ∧
    (local_fallback_response ⟨3, 4, "t"⟩ [⟨"user", "hi"⟩] (Json.obj [])
        (some "OpenAI API key is empty")).actions =
      [⟨"snapshot-" ++ toString (3 : Nat), "query.snapshot", "生成当前快照",
        "用于后续进一步规划和动作确认", Json.obj [], true⟩] :=
  C4_provider_failure_falls_back ⟨3, 4, "t"⟩ ⟨[], [], [], []⟩
    ⟨"openai", ⟨"u", "", "m", none⟩, ⟨"u", "", "m", none⟩, ⟨"u", "", "m", none⟩,
      ⟨true, none, true, [], [], 0⟩⟩
    [⟨"user", "hi"⟩] (Json.obj []) ⟨.error "ignored", ⟨.error "x", []⟩⟩
    "OpenAI API key is empty" rfl

lemma execLoop_ok_of_all_valid (env : ExecEnv) (store0 : Store) (bid now : String) :
    ∀ (actions : List AgentActionProposal) (tx : Store)
      (recs : List AgentExecutionAuditRecord),
      (∀ a ∈ actions, validate_action a.type a.payload = .ok ()) →
      ∃ out, execLoop env store0 bid now tx recs actions = .ok out := by
  intro actions
  induction actions with
  | nil => intro tx recs _; exact ⟨_, rfl⟩
  | cons a rest ih =>
    intro tx recs hval
    have ha := hval a (List.mem_cons_self a rest)
    simp only [execLoop, ha]
    cases hexec : execute_action_with_transaction env tx a with
    | ok p =>
      obtain ⟨tx2, msg⟩ := p
      exact ih tx2 _ (fun b hb => hval b (List.mem_cons_of_mem a hb))
    | error err => exact ⟨_, rfl⟩

/-- C3 counterexample: a chat request whose provider succeeds and proposes an
action of an unsupported type makes `agent_chat` return a hard error (the
validation failure propagates through the `?` on the auto-execution call), so
it is not the case that every path terminates in a `{reply, actions}` value. -/
theorem C3_chat_error_counterexample :
    agent_chat ⟨0, 0, "t"⟩ ⟨[], [], [], []⟩
        ⟨"openai", ⟨"u", "k", "m", none⟩, ⟨"u", "", "m", none⟩, ⟨"u", "", "m", none⟩,
          ⟨true, none, true, [], [], 0⟩⟩
        [⟨"user", "hi"⟩] (Json.obj [])
        ⟨.ok "\x7b\"reply\":\"do\",\"actions\":[\x7b\"id\":\"x\",\"type\":\"bogus\",\"title\":\"t\",\"reason\":\"r\",\"payload\":\x7b\x7d,\"requiresApproval\":false\x7d]\x7d",
          ⟨.error "x", []⟩⟩ =
      some (.error "Action is not allowed: bogus") ∧
    ∀ st resp, agent_chat ⟨0, 0, "t"⟩ ⟨[], [], [], []⟩
        ⟨"openai", ⟨"u", "k", "m", none⟩, ⟨"u", "", "m", none⟩, ⟨"u", "", "m", none⟩,
          ⟨true, none, true, [], [], 0⟩⟩
        [⟨"user", "hi"⟩] (Json.obj [])
        ⟨.ok "\x7b\"reply\":\"do\",\"actions\":[\x7b\"id\":\"x\",\"type\":\"bogus\",\"title\":\"t\",\"reason\":\"r\",\"payload\":\x7b\x7d,\"requiresApproval\":false\x7d]\x7d",
          ⟨.error "x", []⟩⟩ ≠
      some (.ok (st, resp)) := by
  have h1 : agent_chat ⟨0, 0, "t"⟩ ⟨[], [], [], []⟩
      ⟨"openai", ⟨"u", "k", "m", none⟩, ⟨"u", "", "m", none⟩, ⟨"u", "", "m", none⟩,
        ⟨true, none, true, [], [], 0⟩⟩
      [⟨"user", "hi"⟩] (Json.obj [])
      ⟨.ok "\x7b\"reply\":\"do\",\"actions\":[\x7b\"id\":\"x\",\"type\":\"bogus\",\"title\":\"t\",\"reason\":\"r\",\"payload\":\x7b\x7d,\"requiresApproval\":false\x7d]\x7d",
        ⟨.error "x", []⟩⟩ =
      some (.error "Action is not allowed: bogus") := rfl
  refine ⟨h1, ?_⟩
  intro st resp h
  rw [h1] at h
  cases h

/-- C3 amended: `agent_chat` never surfaces a provider failure as an error —
every provider-path failure terminates in the deterministic fallback value —
and on provider success it returns a value whenever every proposed action
passes validation; but a hard error of the atomic auto-execution call (a
validation failure of a proposed action) propagates to the caller. -/
theorem C3_amended_router_error_paths (env : ExecEnv) (store : Store)
    (settings : AgentSettings) (messages : List AgentMessage) (snapshot : Json)
    (world : ProviderWorld) :
    (∀ e, call_provider settings messages snapshot world = some (.error e) →
      agent_chat env store settings messages snapshot world =
        some (.ok (store, local_fallback_response env messages snapshot (some e)))) ∧
    (∀ response, call_provider settings messages snapshot world = some (.ok response) →
      (∀ a ∈ response.actions, validate_action a.type a.payload = .ok ()) →
      ∃ store2 final, agent_chat env store settings messages snapshot world =
        some (.ok (store2, final))) := by
  constructor
  · intro e hfail
    unfold agent_chat
    rw [hfail]
  · intro response hok hval
    unfold agent_chat
    rw [hok]
    by_cases hempty : response.actions.isEmpty
    · simp only [hempty, if_pos]
      exact ⟨store, response, rfl⟩
    · simp only [hempty, Bool.false_eq_true, if_false]
      obtain ⟨out, hloop⟩ :=
        execLoop_ok_of_all_valid env store (batchIdOf env) env.nowRfc3339
          response.actions store [] hval
      unfold agent_execute_actions_atomic
      rw [hloop]
      exact ⟨out.1, _, rfl⟩

/-- Witness for C3 amended: the failure arm at an empty OpenAI credential and
the success arm at a provider reply with no actions. -/
theorem C3_amended_router_error_paths_witness :
    agent_chat ⟨3, 4, "t"⟩ ⟨[], [], [], []⟩
        ⟨"openai", ⟨"u", "", "m", none⟩, ⟨"u", "", "m", none⟩, ⟨"u", "", "m", none⟩,
          ⟨true, none, true, [], [], 0⟩⟩
        [⟨"user", "hi"⟩] (Json.obj []) ⟨.error "ignored", ⟨.error "x", []⟩⟩ =
      some (.ok (⟨[], [], [], []⟩,
        local_fallback_response ⟨3, 4, "t"⟩ [⟨"user", "hi"⟩] (Json.obj [])
          (some "OpenAI API key is empty"))) ∧
    (∃ store2 final, agent_chat ⟨3, 4, "t"⟩ ⟨[], [], [], []⟩
        ⟨"openai", ⟨"u", "k", "m", none⟩, ⟨"u", "", "m", none⟩, ⟨"u", "", "m", none⟩,
          ⟨true, none, true, [], [], 0⟩⟩
        [⟨"user", "hi"⟩] (Json.obj []) ⟨.ok "just a plain reply", ⟨.error "x", []⟩⟩ =
      some (.ok (store2, final))) :=
  ⟨(C3_amended_router_error_paths ⟨3, 4, "t"⟩ ⟨[], [], [], []⟩
      ⟨"openai", ⟨"u", "", "m", none⟩, ⟨"u", "", "m", none⟩, ⟨"u", "", "m", none⟩,
        ⟨true, none, true, [], [], 0⟩⟩
      [⟨"user", "hi"⟩] (Json.obj []) ⟨.error "ignored", ⟨.error "x", []⟩⟩).1
    "OpenAI API key is empty" rfl,
   (C3_amended_router_error_paths ⟨3, 4, "t"⟩ ⟨[], [], [], []⟩
      ⟨"openai", ⟨"u", "k", "m", none⟩, ⟨"u", "", "m", none⟩, ⟨"u", "", "m", none⟩,
        ⟨true, none, true, [], [], 0⟩⟩
      [⟨"user", "hi"⟩] (Json.obj []) ⟨.ok "just a plain reply", ⟨.error "x", []⟩⟩).2
    ⟨"just a plain reply", []⟩ rfl (by intro a ha; cases ha)⟩

/-- C8: the subprocess wait of `run_codex_exec` is bounded by
`max(request_timeout_ms, 1000)` — the configured timeout with a 1000 ms floor
— and when that window is exceeded the child's result is abandoned and the
fixed `Timeout` error is returned. -/
theorem C8_exec_timeout_bound (binary prompt : String) (config : AgentCodexConfig)
    (elapsedMs : Nat) (statusOk : Bool) (statusText stdout stderr : String)
    (hexpire : codexTimeoutMs config < elapsedMs) :
    run_codex_exec binary config prompt
        (.ran elapsedMs statusOk statusText stdout stderr)
      = .error "Codex exec timed out" ∧
    1000 ≤ codexTimeoutMs config ∧
    (1000 ≤ config.request_timeout_ms →
      codexTimeoutMs config = config.request_timeout_ms) := by
  refine ⟨?_, le_max_right _ _, fun h => max_eq_left h⟩
  simp only [run_codex_exec, if_pos hexpire]

/-- Witness for C8: a 120 ms configured timeout is floored to 1000 ms, and a
run that takes 1500 ms times out. -/
theorem C8_exec_timeout_bound_witness :
    run_codex_exec "codex" ⟨true, none, true, [], [], 120⟩ "p"
        (.ran 1500 true "ok" "out" "")
      = .error "Codex exec timed out" ∧
    1000 ≤ codexTimeoutMs ⟨true, none, true, [], [], 120⟩ ∧
    (1000 ≤ (120 : Nat) →
      codexTimeoutMs ⟨true, none, true, [], [], 120⟩ = 120) :=
  C8_exec_timeout_bound "codex" "p" ⟨true, none, true, [], [], 120⟩
    1500 true "ok" "out" "" (by decide)

lemma trimChars_eq_nil_iff (cs : List Char) :
    trimChars cs = [] ↔ ∀ c ∈ cs, rustWs c := by
  unfold trimChars
  rw [List.reverse_eq_nil_iff, List.dropWhile_eq_nil_iff]
  constructor
  · intro h c hc
    rw [← List.takeWhile_append_dropWhile rustWs cs] at hc
    rcases List.mem_append.mp hc with h1 | h2
    · exact List.mem_takeWhile_imp h1
    · exact h _ (List.mem_reverse.mpr h2)
  · intro h c hc
    exact h c ((List.dropWhile_sublist rustWs).mem (List.mem_reverse.mp hc))

lemma strTrim_isEmpty_iff (s : String) :
    (strTrim s).isEmpty ↔ ∀ c ∈ s.data, rustWs c := by
  rw [String.isEmpty_iff]
  unfold strTrim
  rw [show ("" : String) = ⟨[]⟩ from rfl, String.ext_iff]
  exact trimChars_eq_nil_iff s.data

/-- C7 counterexample: the raw output `"}x{"` contains no parseable JSON and
is not whitespace-only, yet `parse_llm_response` does not return it as the
reply: the brace-span slice `content[start..=end]` has its first `'{'` two
positions past the last `'}'` and panics (modelled as `none`). -/
theorem C7_no_json_counterexample :
    jsonParse "\x7dx\x7b" = none ∧
    (strTrim "\x7dx\x7b").isEmpty = false ∧
    parse_llm_response "\x7dx\x7b" = none ∧
    parse_llm_response "\x7dx\x7b" ≠ some (.ok ⟨strTrim "\x7dx\x7b", []⟩) := by
  refine ⟨rfl, rfl, rfl, ?_⟩
  intro h
  have h1 : parse_llm_response "\x7dx\x7b" = none := rfl
  rw [h1] at h
  cases h

/-- C7 amended: whenever the extraction step returns (does not panic) and no
JSON parses from the extracted block, `parse_llm_response` returns the
trimmed raw text as the reply with no actions when that text is non-empty,
and the empty-output error exactly when the raw output is empty or
whitespace-only; when the first `'{'` lies more than one position past the
last `'}'`, extraction panics instead of returning. -/
theorem C7_amended_no_json_plain_reply (content ex : String)
    (hex : extract_json_block content = some ex)
    (hparse : jsonParse ex = none) :
    parse_llm_response content =
      some (if (strTrim content).isEmpty then .error "LLM returned empty content"
            else .ok ⟨strTrim content, []⟩) ∧
    ((strTrim content).isEmpty ↔ ∀ c ∈ content.data, rustWs c) := by
  refine ⟨?_, strTrim_isEmpty_iff content⟩
  unfold parse_llm_response
  rw [hex]
  simp only [hparse]

/-- Witness for C7 amended: plain prose with no JSON. -/
theorem C7_amended_no_json_plain_reply_witness :
    parse_llm_response " hello there " =
      some (if (strTrim " hello there ").isEmpty
            then .error "LLM returned empty content"
            else .ok ⟨strTrim " hello there ", []⟩) ∧
    ((strTrim " hello there ").isEmpty ↔ ∀ c ∈ " hello there ".data, rustWs c) :=
  C7_amended_no_json_plain_reply " hello there " "hello there" rfl rfl


/-- C9: the local-runtime path re-issues the invocation exactly once if and
only if the first normalized reply matches the generic-identity pattern and
proposes no actions; the `codex exec` binary is invoked at most twice per
call (the optional MCP `--help` capability probe is a separate health check),
and a still-generic second reply is returned as-is. -/
theorem C9_single_bounded_retry (settings : AgentSettings)
    (messages : List AgentMessage) (snapshot : Json) (world : CodexWorld) :
    codexExecCalls settings messages snapshot world ≤ 2 ∧
    (∀ binary content r1,
      settings.codex.enabled = true →
      world.resolve = .ok binary →
      run_codex_exec binary settings.codex (build_codex_prompt messages snapshot)
          (runAt world 0) = .ok content →
      parse_llm_response content = some (.ok r1) →
      (((is_generic_identity_reply r1.reply && r1.actions.isEmpty) = true →
         codexExecCalls settings messages snapshot world = 2 ∧
         (∀ content2 r2,
           run_codex_exec binary settings.codex
               (build_codex_prompt messages snapshot ++ retrySuffix)
               (runAt world 1) = .ok content2 →
           parse_llm_response content2 = some (.ok r2) →
           call_codex_local settings messages snapshot world = some (.ok r2))) ∧
       ((is_generic_identity_reply r1.reply && r1.actions.isEmpty) = false →
         codexExecCalls settings messages snapshot world = 1 ∧
         call_codex_local settings messages snapshot world = some (.ok r1)))) ∧
    (codexExecCalls settings messages snapshot world = 2 →
      settings.codex.enabled = true ∧
      ∃ binary content r1, world.resolve = .ok binary ∧
        run_codex_exec binary settings.codex (build_codex_prompt messages snapshot)
          (runAt world 0) = .ok content ∧
        parse_llm_response content = some (.ok r1) ∧
        (is_generic_identity_reply r1.reply && r1.actions.isEmpty) = true) := by
  refine ⟨?_, ?_, ?_⟩
  · unfold codexExecCalls call_codex_localCore
    repeat' split
    all_goals simp
  · intro binary content r1 he hres hrun hparse
    constructor
    · intro hg
      constructor
      · unfold codexExecCalls call_codex_localCore
        simp only [he, not_true_eq_false, if_false, hres, hrun, hparse, hg, if_true]
        repeat' split
        all_goals rfl
      · intro content2 r2 hrun2 hparse2
        unfold call_codex_local call_codex_localCore
        simp only [he, not_true_eq_false, if_false, hres, hrun, hparse, hg, if_true,
          hrun2, hparse2]
    · intro hg
      refine ⟨?_, ?_⟩
      · unfold codexExecCalls call_codex_localCore
        simp only [he, not_true_eq_false, if_false, hres, hrun, hparse, hg,
          Bool.false_eq_true, if_false]
      · unfold call_codex_local call_codex_localCore
        simp only [he, not_true_eq_false, if_false, hres, hrun, hparse, hg,
          Bool.false_eq_true, if_false]
  · intro h2
    unfold codexExecCalls call_codex_localCore at h2
    split at h2
    · simp at h2
    · next hne =>
      have he : settings.codex.enabled = true := by
        by_cases hb : settings.codex.enabled
        · exact hb
        · exact absurd hb hne
      refine ⟨he, ?_⟩
      split at h2
      · simp at h2
      · next binary heq =>
        split at h2
        · simp at h2
        · next content heq2 =>
          split at h2
          · simp at h2
          · simp at h2
          · next r1 heq3 =>
            split at h2
            · next hg => exact ⟨binary, content, r1, heq, heq2, heq3, hg⟩
            · simp at h2

/-- Witness for C9: a first run answering with the exact boilerplate
self-introduction and no actions triggers exactly one reinforced retry, whose
reply is returned as-is. -/
theorem C9_single_bounded_retry_witness :
    codexExecCalls
        ⟨"codex_local", ⟨"u", "", "m", none⟩, ⟨"u", "", "m", none⟩, ⟨"u", "", "m", none⟩,
          ⟨true, none, false, [], [], 5000⟩⟩
        [⟨"user", "安排一下明天"⟩] (Json.obj [])
        ⟨.ok "codex",
         [.ran 5 true "0" "我是 ZhaoXi Workbench Agent。你可以直接告诉我你的安排目标，我会先给出可执行计划，再由你确认执行。" "",
          .ran 5 true "0" "好的收到" ""]⟩ = 2 ∧
    call_codex_local
        ⟨"codex_local", ⟨"u", "", "m", none⟩, ⟨"u", "", "m", none⟩, ⟨"u", "", "m", none⟩,
          ⟨true, none, false, [], [], 5000⟩⟩
        [⟨"user", "安排一下明天"⟩] (Json.obj [])
        ⟨.ok "codex",
         [.ran 5 true "0" "我是 ZhaoXi Workbench Agent。你可以直接告诉我你的安排目标，我会先给出可执行计划，再由你确认执行。" "",
          .ran 5 true "0" "好的收到" ""]⟩ = some (.ok ⟨"好的收到", []⟩) :=
  have h :=
    (C9_single_bounded_retry
        ⟨"codex_local", ⟨"u", "", "m", none⟩, ⟨"u", "", "m", none⟩, ⟨"u", "", "m", none⟩,
          ⟨true, none, false, [], [], 5000⟩⟩
        [⟨"user", "安排一下明天"⟩] (Json.obj [])
        ⟨.ok "codex",
         [.ran 5 true "0" "我是 ZhaoXi Workbench Agent。你可以直接告诉我你的安排目标，我会先给出可执行计划，再由你确认执行。" "",
          .ran 5 true "0" "好的收到" ""]⟩).2.1
      "codex"
      "我是 ZhaoXi Workbench Agent。你可以直接告诉我你的安排目标，我会先给出可执行计划，再由你确认执行。"
      ⟨"我是 ZhaoXi Workbench Agent。你可以直接告诉我你的安排目标，我会先给出可执行计划，再由你确认执行。", []⟩
      rfl rfl rfl rfl
  ⟨(h.1 rfl).1, (h.1 rfl).2 "好的收到" ⟨"好的收到", []⟩ rfl rfl⟩

lemma leadsWith_append_left (pat : List Char) :
    ∀ xs, leadsWith pat xs = true → ∀ ys, leadsWith pat (xs ++ ys) = true := by
  induction pat with
  | nil => intro xs _ ys; rfl
  | cons p ps ih =>
    intro xs h ys
    cases xs with
    | nil => cases h
    | cons x xs2 =>
      simp only [leadsWith, Bool.and_eq_true, decide_eq_true_eq] at h
      simp only [List.cons_append, leadsWith, Bool.and_eq_true, decide_eq_true_eq]
      exact ⟨h.1, ih xs2 h.2 ys⟩

lemma findSub_cons_of_leadsWith (pat : List Char) (c : Char) (cs : List Char)
    (h : leadsWith pat (c :: cs) = true) : findSub pat (c :: cs) = some 0 := by
  simp [findSub, h]

lemma findSub_append_no_head (hd : Char) (pat : List Char) :
    ∀ (xs ys : List Char), (∀ c ∈ xs, c ≠ hd) →
      findSub (hd :: pat) (xs ++ ys) = (findSub (hd :: pat) ys).map (· + xs.length) := by
  intro xs
  induction xs with
  | nil =>
    intro ys _
    cases h : findSub (hd :: pat) ys <;> simp [h]
  | cons x xs2 ih =>
    intro ys hxs
    have hx : ¬ (hd = x) := fun h => hxs x (List.mem_cons_self x xs2) h.symm
    have hlw : leadsWith (hd :: pat) (x :: (xs2 ++ ys)) = false := by
      simp [leadsWith, hx]
    simp only [List.cons_append, List.append_eq, findSub, hlw, Bool.false_eq_true,
      if_false]
    rw [ih ys (fun c hc => hxs c (List.mem_cons_of_mem x hc))]
    cases h : findSub (hd :: pat) ys <;> simp [h, Nat.add_assoc]

lemma extract_json_block_fenced (pre post : String)
    (hpre : ∀ c ∈ pre.data, c ≠ '`') :
    extract_json_block
        (pre ++ "```json\n\x7b\"reply\":\"ok\",\"actions\":[]\x7d\n```" ++ post) =
      some "\x7b\"reply\":\"ok\",\"actions\":[]\x7d" := by
  have hdata : (pre ++ "```json\n\x7b\"reply\":\"ok\",\"actions\":[]\x7d\n```" ++ post).data
      = pre.data ++ ("```json\n\x7b\"reply\":\"ok\",\"actions\":[]\x7d\n```".data ++ post.data) := by
    rw [String.data_append, String.data_append, List.append_assoc]
  have hfind0 : findSub "```json".data
      ("```json\n\x7b\"reply\":\"ok\",\"actions\":[]\x7d\n```".data ++ post.data) = some 0 :=
    findSub_cons_of_leadsWith _ _ _
      (leadsWith_append_left "```json".data
        "```json\n\x7b\"reply\":\"ok\",\"actions\":[]\x7d\n```".data rfl post.data)
  have hfind1 : findSub "```json".data
      (pre.data ++ ("```json\n\x7b\"reply\":\"ok\",\"actions\":[]\x7d\n```".data ++ post.data))
      = some pre.data.length := by
    have h2 : findSub "```json".data
        (pre.data ++ ("```json\n\x7b\"reply\":\"ok\",\"actions\":[]\x7d\n```".data ++ post.data))
        = (findSub "```json".data
            ("```json\n\x7b\"reply\":\"ok\",\"actions\":[]\x7d\n```".data ++ post.data)).map
          (· + pre.data.length) :=
      findSub_append_no_head '`' "``json".data pre.data _ hpre
    rw [h2, hfind0]
    simp
  have hdecomp : pre.data ++
        ("```json\n\x7b\"reply\":\"ok\",\"actions\":[]\x7d\n```".data ++ post.data)
      = (pre.data ++ "```json".data) ++
        ("\n\x7b\"reply\":\"ok\",\"actions\":[]\x7d\n".data ++ ("```".data ++ post.data)) := by
    simp [List.append_assoc]
  have hdrop : (pre.data ++
        ("```json\n\x7b\"reply\":\"ok\",\"actions\":[]\x7d\n```".data ++ post.data)).drop
        (pre.data.length + 7)
      = "\n\x7b\"reply\":\"ok\",\"actions\":[]\x7d\n".data ++ ("```".data ++ post.data) := by
    rw [hdecomp]
    have hlen : (pre.data ++ "```json".data).length = pre.data.length + 7 := by
      rw [List.length_append]
      rfl
    rw [← hlen, List.drop_left]
  have hfind3 : findSub "```".data ("```".data ++ post.data) = some 0 :=
    findSub_cons_of_leadsWith _ _ _
      (leadsWith_append_left "```".data "```".data rfl post.data)
  have hfind2 : findSub "```".data
      ("\n\x7b\"reply\":\"ok\",\"actions\":[]\x7d\n".data ++ ("```".data ++ post.data))
      = some ("\n\x7b\"reply\":\"ok\",\"actions\":[]\x7d\n".data).length := by
    have h2 : findSub "```".data
        ("\n\x7b\"reply\":\"ok\",\"actions\":[]\x7d\n".data ++ ("```".data ++ post.data))
        = (findSub "```".data ("```".data ++ post.data)).map
          (· + ("\n\x7b\"reply\":\"ok\",\"actions\":[]\x7d\n".data).length) :=
      findSub_append_no_head '`' "``".data
        "\n\x7b\"reply\":\"ok\",\"actions\":[]\x7d\n".data _ (by decide)
    rw [h2, hfind3]
    simp
  have htake : ("\n\x7b\"reply\":\"ok\",\"actions\":[]\x7d\n".data ++
        ("```".data ++ post.data)).take
        (("\n\x7b\"reply\":\"ok\",\"actions\":[]\x7d\n".data).length)
      = "\n\x7b\"reply\":\"ok\",\"actions\":[]\x7d\n".data :=
    List.take_left _ _
  unfold extract_json_block
  rw [hdata]
  simp only [hfind1]
  rw [hdrop]
  simp only [hfind2]
  rw [htake]
  rfl

/-- C6: any raw model output consisting of a fenced
` ```json {"reply":"ok","actions":[]} ``` ` block surrounded by prose (no
backtick in the leading prose) normalizes to reply `"ok"` with no actions:
the fenced block's interior wins over the surrounding text. -/
theorem C6_fenced_block_preferred (pre post : String)
    (hpre : ∀ c ∈ pre.data, c ≠ '`') :
    parse_llm_response
        (pre ++ "```json\n\x7b\"reply\":\"ok\",\"actions\":[]\x7d\n```" ++ post) =
      some (.ok ⟨"ok", []⟩) := by
  unfold parse_llm_response
  rw [extract_json_block_fenced pre post hpre]
  rfl

/-- Witness for C6: the fenced block embedded in concrete prose. -/
theorem C6_fenced_block_preferred_witness :
    parse_llm_response
        ("Here you go: " ++ "```json\n\x7b\"reply\":\"ok\",\"actions\":[]\x7d\n```"
          ++ "\nLet me know!") =
      some (.ok ⟨"ok", []⟩) :=
  C6_fenced_block_preferred "Here you go: " "\nLet me know!" (by decide)
